import Mathlib

/-!
Shallow embedding of the ferro task-orchestration engine and proofs about
its execution semantics. The definitions translate `src/ferro.rs`,
`src/lazy.rs` and `src/when.rs`: the recursive `Value` model, the
dot-separated path navigator `find`, the `Task::run` result capture, the
`Playbook::run` fail-fast driver, and the lazy resolvers.
-/

namespace ferro

/-- The structured value model, mirroring `serde_json::value::Value`.
Numbers are modelled by integers: no engine operation inspects numeric
content, only the shape of a value matters for path lookup. Objects are
modelled as association lists queried by key, mirroring
`serde_json::Map::get`. -/
inductive Value where
  | null : Value
  | bool (b : Bool) : Value
  | num (n : Int) : Value
  | str (s : String) : Value
  | arr (items : List Value) : Value
  | obj (entries : List (String × Value)) : Value

/-- The scalar shapes of `Value`: the early-stop cases of `ferro::find`. -/
def Value.isScalar : Value → Bool
  | .null | .bool _ | .num _ | .str _ => true
  | .arr _ | .obj _ => false

/-- Key lookup in an association list, mirroring `HashMap::get` and
`serde_json::Map::get`: the value of the first entry with the given key. -/
def getKV {α : Type} (key : String) : List (String × α) → Option α
  | [] => none
  | (k, v) :: rest => if k = key then some v else getKV key rest

/-- Key insertion, mirroring `HashMap::insert`: replaces the entry with the
given key when one is present, otherwise appends a new entry. -/
def insertKV {α : Type} (key : String) (value : α) :
    List (String × α) → List (String × α)
  | [] => [(key, value)]
  | (k, v) :: rest =>
    if k = key then (key, value) :: rest else (k, v) :: insertKV key value rest

/-- `ferro::Error`: the module/condition error type, carrying the
partial-side-effect flag `changed` and a textual description. -/
structure Error where
  changed : Bool
  description : String
  deriving DecidableEq

/-- `Error`'s `Display` implementation prints only the description, so
`e.to_string()` is `e.description`. -/
def Error.toString (e : Error) : String := e.description

/-- `ferro::error`, the constructor helper. -/
def error (changed : Bool) (description : String) : Error :=
  ⟨changed, description⟩

/-- Rust `char::is_numeric` as used on path segments. Rust's predicate is
the Unicode `Number` category; on ASCII text it coincides with
`Char.isDigit`, which is the reading used here (every path decided in this
development is ASCII). -/
def charIsNumeric (c : Char) : Bool := c.isDigit

/-- Rust `str::parse::<usize>` on a segment: fails on the empty string, on
any non-digit character, and on overflow past `usize::MAX` (64-bit). -/
def parseUsize (s : String) : Option Nat :=
  if s.toList = [] then none
  else if s.toList.all Char.isDigit then
    let n := s.toList.foldl (fun acc c => acc * 10 + (c.toNat - 48)) 0
    if n < 2 ^ 64 then some n else none
  else none

/-- Rust `str::split` on a single separator character, over the character
list: it always returns at least one (possibly empty) piece, and empty
pieces appear between consecutive separators and at both ends. In
particular splitting the empty string yields one empty piece. -/
def splitCharsOn (sep : Char) : List Char → List (List Char)
  | [] => [[]]
  | c :: rest =>
    let groups := splitCharsOn sep rest
    if c = sep then [] :: groups
    else
      match groups with
      | g :: gs => (c :: g) :: gs
      | [] => [[c]]

/-- `path.split('.')` as used by `ferro::find`. -/
def splitOnDot (s : String) : List String :=
  (splitCharsOn '.' s.toList).map (fun cs => String.mk cs)

/-- Outcome of `ferro::find`: the Rust function returns
`Result<Value, Error>` but can also panic (the `unwrap` of a failed
`usize` parse in the array branch), so the embedding makes the panic an
explicit third outcome. -/
inductive FindResult where
  | ok (v : Value) : FindResult
  | err (e : Error) : FindResult
  | panic : FindResult

/-- The inner recursion of `ferro::find` over the split path segments
(src/ferro.rs lines 198-228). The scalar branch returns the current value
even when segments remain. The array branch first checks
`first.chars().all(char::is_numeric)` and then unwraps
`first.parse::<usize>()`; a segment passing the first check but failing
the parse (the empty segment, or an overflowing numeral) panics. -/
def findInner (path : String) (parts : List String) (obj : Value) :
    FindResult :=
  match parts with
  | [] => .ok obj
  | first :: rest =>
    let notFound := "value not found at path " ++ path
    let notArrayIndex := "array index must be numeric at path " ++ path
    match obj with
    | .null | .bool _ | .num _ | .str _ => .ok obj
    | .arr v =>
      if first.toList.all charIsNumeric then
        match parseUsize first with
        | some index =>
          match v.get? index with
          | some value => findInner path rest value
          | none => .err (error false notFound)
        | none => .panic
      else .err (error false notArrayIndex)
    | .obj o =>
      match getKV first o with
      | some value => findInner path rest value
      | none => .err (error false notFound)

/-- `ferro::find`: navigate a `Value` by a dot-separated path. -/
def find (path : String) (obj : Value) : FindResult :=
  findInner path (splitOnDot path) obj

/-- `ferro::Context`: the playbook-run shared state, with the association
lists standing for the two `HashMap`s. -/
structure Context where
  vars : List (String × String)
  state : List (String × Value)

/-- `ferro::Output` trait object: the engine only ever calls `to_value`,
so an output is modelled by that conversion's result
(`Result<Value, serde_json::Error>`, the error carrying a message). -/
structure Output where
  toValue : Except String Value

/-- `ferro::Response`. -/
structure Response where
  changed : Bool
  output : Option Output

/-- `ferro::Module` trait object: `name`, `apply` and `destroy`. -/
structure Module where
  name : String
  apply : Context → Except Error Response
  destroy : Except Error Response

/-- `ferro::TaskResult`. -/
structure TaskResult where
  module : String
  succeeded : Bool
  changed : Bool
  error : Option String
  output : Option Output

/-- `ferro::Task`. The `when` trait object is modelled by the outcome of
its single `when()` evaluation during `Task::run`
(`When::when(&self) -> Result<bool, Error>`). -/
structure Task where
  description : String
  module : Module
  when : Except Error Bool

/-- `when::Always::when()` returns `Ok(true)`. -/
def Always : Except Error Bool := .ok true

/-- `when::Never::when()` returns `Ok(false)`. -/
def Never : Except Error Bool := .ok false

/-- `ferro::result_response`. -/
def result_response (changed : Bool) (output : Option Output) :
    Except Error Response :=
  .ok ⟨changed, output⟩

/-- `Task::run` (src/ferro.rs lines 105-135). Note the outer
`map_err(|e| error(false, e.to_string()))`: it is applied to every error
that reaches it, including module errors already rebuilt by the inner
`map_err(|e| error(e.changed, e.description))`. -/
def Task.run (t : Task) (context : Context) : TaskResult :=
  let result : Except Error Response :=
    Except.mapError (fun e => error false e.toString)
      (t.when.bind (fun proceed =>
        if proceed then
          Except.mapError (fun e => error e.changed e.description)
            ((t.module.apply context).bind
              (fun response => result_response response.changed response.output))
        else
          result_response false none))
  match result with
  | .ok response =>
    { module := t.module.name, succeeded := true, changed := response.changed,
      error := none, output := response.output }
  | .error e =>
    { module := t.module.name, succeeded := false, changed := e.changed,
      error := some e.description, output := none }

/-- The state update the playbook driver performs after each task run
(src/ferro.rs lines 148-152): when the result carries an output that
converts to a `Value`, store it under the task's description, replacing
any prior entry at that key. -/
def Context.afterTask (context : Context) (task : Task) (result : TaskResult) :
    Context :=
  match result.output with
  | some output =>
    match output.toValue with
    | .ok value =>
      { context with state := insertKV task.description value context.state }
    | .error _ => context
  | none => context

/-- The `Playbook::run` loop (src/ferro.rs lines 144-166), with the
`&mut self.context` mutation made explicit: it returns the accumulated
results together with the final context. The JSON pretty-printing of each
result is a console side effect whose failure is swallowed; it touches
neither the results nor the state and is not modelled. -/
def runTasks : List Task → Context → List TaskResult × Context
  | [], context => ([], context)
  | task :: rest, context =>
    let result := task.run context
    let context1 := context.afterTask task result
    if result.succeeded then
      let next := runTasks rest context1
      (result :: next.1, next.2)
    else
      ([result], context1)

/-- `ferro::Playbook`. -/
structure Playbook where
  tasks : List Task
  context : Context

/-- `Playbook::run`. -/
def Playbook.run (p : Playbook) : List TaskResult × Context :=
  runTasks p.tasks p.context

end ferro

open ferro

/-- Outcome of a lazy resolver: the Rust closures return `String`, but a
panic inside `ferro::find` propagates through `lazy::state`, so the
embedding makes that outcome explicit. -/
inductive LazyOut where
  | ok (s : String) : LazyOut
  | panic : LazyOut
  deriving DecidableEq

namespace lazy

/-- `lazy::var` (src/lazy.rs lines 10-18). -/
def var (path : String) (context : Context) : LazyOut :=
  match getKV path context.vars with
  | some value => .ok value
  | none => .ok ""

/-- `lazy::state` (src/lazy.rs lines 20-35):
`if let Ok(Value::String(value)) = find(...)` — an `Ok` of a non-string
value and an `Err` both degrade to the empty string, while a panic in
`find` propagates out of the resolver. -/
def state (task_description : String) (path : String) (context : Context) :
    LazyOut :=
  match getKV task_description context.state with
  | some task =>
    match find path task with
    | .ok (.str value) => .ok value
    | .ok _ => .ok ""
    | .err _ => .ok ""
    | .panic => .panic
  | none => .ok ""

/-- `lazy::with_default` (src/lazy.rs lines 37-49). -/
def with_default (f : Context → LazyOut) (default : Context → LazyOut)
    (context : Context) : LazyOut :=
  match f context with
  | .ok value => if value ≠ "" then .ok value else default context
  | .panic => .panic

/-- `lazy::string` (src/lazy.rs lines 51-53). -/
def string (s : String) (_context : Context) : LazyOut := .ok s

end lazy

/-! ## Concrete instances used by the witnesses and counterexamples -/

/-- The empty context: no variables, no accumulated state. -/
def ctx0 : Context := ⟨[], []⟩

/-- A module whose `apply` fails with `changed = true`: the error reports
that a partial side effect already occurred. -/
def boomModule : Module :=
  { name := "boom", apply := fun _ => .error ⟨true, "boom"⟩,
    destroy := .error ⟨true, "boom"⟩ }

/-- A task running `boomModule` under an always-true condition. -/
def boomTask : Task := ⟨"boom task", boomModule, Always⟩

/-- A module succeeding with `changed = true` and a string output. -/
def okModule (nm out : String) : Module :=
  { name := nm, apply := fun _ => .ok ⟨true, some ⟨.ok (.str out)⟩⟩,
    destroy := .ok ⟨false, none⟩ }

/-- A task running `okModule` under an always-true condition. -/
def okTask (d nm out : String) : Task := ⟨d, okModule nm out, Always⟩

/-- A context whose state holds an empty array under description `t`. -/
def ctxArr : Context := ⟨[], [("t", Value.arr [])]⟩

/-- The lookup target of the repository's own `test_find` unit test. -/
def testValue : Value :=
  .obj [("k1", .obj [("k1", .arr [.str "1", .str "2", .str "3"]),
                     ("k2", .arr [.num 1, .num 2, .num 3])]),
        ("k2", .obj [("k1", .arr [.obj [("k1", .str "v1"), ("k2", .str "v2")]])])]

/-! ## Helper lemmas -/

/-- Unfolding lemma for one step of the playbook driver loop. -/
theorem runTasks_cons (t : Task) (rest : List Task) (ctx : Context) :
    runTasks (t :: rest) ctx =
      if (t.run ctx).succeeded then
        ((t.run ctx) :: (runTasks rest (ctx.afterTask t (t.run ctx))).1,
          (runTasks rest (ctx.afterTask t (t.run ctx))).2)
      else ([t.run ctx], ctx.afterTask t (t.run ctx)) := rfl

/-- A false condition produces the skipped-task result. -/
theorem Task.run_when_false (t : Task) (ctx : Context) (h : t.when = .ok false) :
    t.run ctx = ⟨t.module.name, true, false, none, none⟩ := by
  simp [Task.run, h, Except.bind, Except.mapError, result_response]

/-- A condition-evaluation error produces a failed result with
`changed = false` and the error's text. -/
theorem Task.run_when_error (t : Task) (ctx : Context) (e : Error)
    (h : t.when = .error e) :
    t.run ctx = ⟨t.module.name, false, false, some e.description, none⟩ := by
  simp [Task.run, h, Except.bind, Except.mapError, result_response, error,
    Error.toString]

/-- A true condition and a successful `apply` produce a succeeded result
carrying the response's `changed` flag and output. -/
theorem Task.run_apply_ok (t : Task) (ctx : Context) (r : Response)
    (hw : t.when = .ok true) (ha : t.module.apply ctx = .ok r) :
    t.run ctx = ⟨t.module.name, true, r.changed, none, r.output⟩ := by
  simp [Task.run, hw, ha, Except.bind, Except.mapError, result_response]

/-- A true condition and a failed `apply` produce a failed result whose
`changed` flag is `false` regardless of the error's flag: the outer
`map_err` of `Task::run` rebuilds every error with `changed = false`. -/
theorem Task.run_apply_error (t : Task) (ctx : Context) (e : Error)
    (hw : t.when = .ok true) (ha : t.module.apply ctx = .error e) :
    t.run ctx = ⟨t.module.name, false, false, some e.description, none⟩ := by
  simp [Task.run, hw, ha, Except.bind, Except.mapError, result_response, error,
    Error.toString]

/-- Looking up a key right after inserting it finds the inserted value. -/
theorem getKV_insertKV {α : Type} (k : String) (v : α) (m : List (String × α)) :
    getKV k (insertKV k v m) = some v := by
  induction m with
  | nil => simp [insertKV, getKV]
  | cons p rest ih =>
    obtain ⟨a, b⟩ := p
    by_cases h : a = k <;> simp [insertKV, getKV, h, ih]

/-- Dropping the last element of a list with at least two elements keeps
the head. -/
theorem dropLast_cons_cons {α : Type} (a b : α) (l : List α) :
    (a :: b :: l).dropLast = a :: (b :: l).dropLast := rfl

/-- The embedding reproduces every assertion of the repository's own
`test_find` unit test (src/ferro.rs lines 240-275). -/
theorem test_find_examples :
    find "k1.k1.1" testValue = .ok (.str "2") ∧
    find "k1.k2.1" testValue = .ok (.num 2) ∧
    find "k2.k1.0.k1" testValue = .ok (.str "v1") ∧
    find "k1.k1" testValue = .ok (.arr [.str "1", .str "2", .str "3"]) ∧
    find "k1" testValue =
      .ok (.obj [("k1", .arr [.str "1", .str "2", .str "3"]),
                 ("k2", .arr [.num 1, .num 2, .num 3])]) ∧
    find "k1.k2" testValue = .ok (.arr [.num 1, .num 2, .num 3]) ∧
    find "k2.k1.0" testValue =
      .ok (.obj [("k1", .str "v1"), ("k2", .str "v2")]) :=
  ⟨rfl, rfl, rfl, rfl, rfl, rfl, rfl⟩

/-! ## Claims -/

/-- C1: the claim says a module `apply` error propagates its `changed`
flag into the `TaskResult`. The code does not: the outer
`map_err(|e| error(false, e.to_string()))` in `Task::run` rebuilds every
error with `changed = false`, so a module error with `changed = true` and
description "boom" yields a result with `changed = false` while keeping
the description. -/
theorem task_run_drops_error_changed_flag :
    boomModule.apply ctx0 = .error ⟨true, "boom"⟩ ∧
    boomTask.run ctx0 =
      { module := "boom", succeeded := false, changed := false,
        error := some "boom", output := none } := ⟨rfl, rfl⟩

/-- C2: `Playbook::run` is fail-fast: once a result fails, appending
further tasks changes nothing, and for a 3-task playbook whose second
task fails the returned sequence is exactly the two results of the tasks
attempted (so it has length 2) and the third task never executes (the run
coincides with the run of the first two tasks alone). -/
theorem playbook_fail_fast :
    (∀ (tasks extra : List ferro.Task) (ctx : Context),
      (∃ r ∈ (runTasks tasks ctx).1, r.succeeded = false) →
      runTasks (tasks ++ extra) ctx = runTasks tasks ctx) ∧
    (∀ (t1 t2 t3 : ferro.Task) (ctx : Context),
      (t1.run ctx).succeeded = true →
      (t2.run (ctx.afterTask t1 (t1.run ctx))).succeeded = false →
      (runTasks [t1, t2, t3] ctx).1 =
        [t1.run ctx, t2.run (ctx.afterTask t1 (t1.run ctx))] ∧
      (runTasks [t1, t2, t3] ctx).1.length = 2 ∧
      runTasks [t1, t2, t3] ctx = runTasks [t1, t2] ctx) := by
  constructor
  · intro tasks extra ctx h
    induction tasks generalizing ctx with
    | nil =>
      obtain ⟨r, hr, _⟩ := h
      simp [runTasks] at hr
    | cons t rest ih =>
      rw [runTasks_cons] at h
      by_cases hs : (t.run ctx).succeeded = true
      · rw [if_pos hs] at h
        obtain ⟨r, hr, hfail⟩ := h
        simp only [List.mem_cons] at hr
        rcases hr with hr | hr
        · rw [hr] at hfail
          rw [hfail] at hs
          simp at hs
        · have htail : ∃ r ∈ (runTasks rest (ctx.afterTask t (t.run ctx))).1,
              r.succeeded = false := ⟨r, hr, hfail⟩
          have hrec := ih (ctx.afterTask t (t.run ctx)) htail
          rw [List.cons_append, runTasks_cons, runTasks_cons, if_pos hs,
            if_pos hs, hrec]
      · rw [List.cons_append, runTasks_cons, runTasks_cons, if_neg hs, if_neg hs]
  · intro t1 t2 t3 ctx h1 h2
    have hnot : ¬((t2.run (ctx.afterTask t1 (t1.run ctx))).succeeded = true) := by
      rw [h2]; simp
    refine ⟨?_, ?_, ?_⟩
    · rw [runTasks_cons, if_pos h1, runTasks_cons, if_neg hnot]
    · rw [runTasks_cons, if_pos h1, runTasks_cons, if_neg hnot]
      rfl
    · rw [runTasks_cons, if_pos h1, runTasks_cons, if_neg hnot,
        runTasks_cons, if_pos h1, runTasks_cons, if_neg hnot]

/-- A succeeding first task for the C2 witness. -/
def wt1 : ferro.Task := okTask "one" "m1" "a"

/-- A third task that the C2 witness playbook never reaches. -/
def wt3 : ferro.Task := okTask "three" "m3" "c"

/-- C2 witness: a concrete 3-task playbook whose second task fails. -/
theorem playbook_fail_fast_witness :
    runTasks ([wt1, boomTask] ++ [wt3]) ctx0 = runTasks [wt1, boomTask] ctx0 ∧
    (runTasks [wt1, boomTask, wt3] ctx0).1 =
      [wt1.run ctx0, boomTask.run (ctx0.afterTask wt1 (wt1.run ctx0))] :=
  ⟨playbook_fail_fast.1 [wt1, boomTask] [wt3] ctx0
      ⟨boomTask.run (ctx0.afterTask wt1 (wt1.run ctx0)),
        List.Mem.tail _ (List.Mem.head _), rfl⟩,
    (playbook_fail_fast.2 wt1 boomTask wt3 ctx0 rfl rfl).1⟩

/-- C3: `find` applied to any scalar value (`Null`, `Bool`, `Number` or
`String`) returns that scalar unchanged with no error, for every path,
including paths with unconsumed segments. -/
theorem find_scalar_early_stop (path : String) (b : Bool) (n : Int) (s : String) :
    find path Value.null = .ok Value.null ∧
    find path (Value.bool b) = .ok (Value.bool b) ∧
    find path (Value.num n) = .ok (Value.num n) ∧
    find path (Value.str s) = .ok (Value.str s) := by
  have h : ∀ (parts : List String) (v : Value), v.isScalar = true →
      findInner path parts v = .ok v := by
    intro parts v hv
    cases parts <;> cases v <;> simp_all [findInner, Value.isScalar]
  exact ⟨h _ _ rfl, h _ _ rfl, h _ _ rfl, h _ _ rfl⟩

/-- C4: on an array, a non-numeric segment gives the "array index must be
numeric" error and an in-bounds-parse but out-of-range index gives the
"not found" error — but a third outcome exists, contradicting the claim:
the empty segment passes the vacuous `all(is_numeric)` check and then
panics in `parse::<usize>().unwrap()`. -/
theorem find_array_segment_outcomes :
    find "x" (Value.arr [Value.null]) =
      .err (error false "array index must be numeric at path x") ∧
    find "5" (Value.arr [Value.null]) =
      .err (error false "value not found at path 5") ∧
    find "" (Value.arr [Value.null]) = FindResult.panic := ⟨rfl, rfl, rfl⟩

/-- C5 counterexample: the empty path is split into the single segment
`""`, not into no segments, so `find("", v)` is not the identity: on the
empty object it reports "value not found" instead of returning the
object. -/
theorem find_empty_path_not_identity :
    find "" (Value.obj []) = .err (error false "value not found at path ") ∧
    find "" (Value.obj []) ≠ .ok (Value.obj []) := by
  refine ⟨rfl, fun h => ?_⟩
  rw [show find "" (Value.obj []) =
      FindResult.err (error false "value not found at path ") from rfl] at h
  exact FindResult.noConfusion h

/-- C5 amended: `path.split('.')` maps the empty path to the single empty
segment, so `find("", v)` returns `v` unchanged only for scalar `v`; on
an array the empty segment panics in the numeric-index parse, and on an
object it is looked up as the key `""`, returning that entry when present
and the "not found" error otherwise. -/
theorem find_empty_path_cases (v : Value) :
    find "" v = (match v with
      | .arr _ => FindResult.panic
      | .obj o =>
        (match getKV "" o with
          | some w => FindResult.ok w
          | none => FindResult.err (error false "value not found at path "))
      | w => FindResult.ok w) := by
  cases v with
  | obj o => cases h : getKV "" o <;>
      simp [find, splitOnDot, splitCharsOn, findInner, h]
  | _ => rfl

/-- C6: a task whose condition evaluates false yields
`succeeded = true, changed = false, output = none`, and the playbook's
state-update step after it leaves the context untouched. -/
theorem task_condition_false_skip (t : ferro.Task) (ctx : Context)
    (h : t.when = .ok false) :
    t.run ctx = ⟨t.module.name, true, false, none, none⟩ ∧
    ctx.afterTask t (t.run ctx) = ctx := by
  have h1 := Task.run_when_false t ctx h
  exact ⟨h1, by rw [h1]; rfl⟩

/-- C6 witness: a concrete skipped task (condition `Never`) over the empty
context. -/
theorem task_condition_false_skip_witness :
    (Task.mk "skip" boomModule Never).run ctx0 =
      ⟨"boom", true, false, none, none⟩ ∧
    ctx0.afterTask (Task.mk "skip" boomModule Never)
      ((Task.mk "skip" boomModule Never).run ctx0) = ctx0 :=
  task_condition_false_skip (Task.mk "skip" boomModule Never) ctx0 rfl

/-- C7: when two tasks share one description and both produce convertible
output, after the first task the state holds the first output at that key,
and after the whole two-task run the second task's output has replaced it;
the engine imposes no uniqueness on descriptions. -/
theorem duplicate_description_replaces (t1 t2 : ferro.Task) (ctx : Context)
    (o1 o2 : Output) (v1 v2 : Value)
    (hd : t1.description = t2.description)
    (h1 : (t1.run ctx).succeeded = true)
    (ho1 : (t1.run ctx).output = some o1) (hv1 : o1.toValue = .ok v1)
    (ho2 : (t2.run (ctx.afterTask t1 (t1.run ctx))).output = some o2)
    (hv2 : o2.toValue = .ok v2) :
    getKV t2.description (ctx.afterTask t1 (t1.run ctx)).state = some v1 ∧
    getKV t2.description (runTasks [t1, t2] ctx).2.state = some v2 := by
  set c1 := ctx.afterTask t1 (t1.run ctx) with hc1
  have hstep1 : c1 = { ctx with state := insertKV t1.description v1 ctx.state } := by
    rw [hc1]
    simp only [Context.afterTask, ho1, hv1]
  constructor
  · rw [hstep1, ← hd]
    exact getKV_insertKV t1.description v1 ctx.state
  · have hstep2 : c1.afterTask t2 (t2.run c1) =
        { c1 with state := insertKV t2.description v2 c1.state } := by
      simp only [Context.afterTask, ho2, hv2]
    have hrun2 : (runTasks [t1, t2] ctx).2 = c1.afterTask t2 (t2.run c1) := by
      rw [runTasks_cons, if_pos h1, ← hc1]
      by_cases hs : (t2.run c1).succeeded = true
      · rw [runTasks_cons, if_pos hs]
        rfl
      · rw [runTasks_cons, if_neg hs]
    rw [hrun2, hstep2]
    exact getKV_insertKV t2.description v2 c1.state

/-- The first of two tasks sharing the description "dup". -/
def dupTask1 : ferro.Task := okTask "dup" "m1" "a"

/-- The second of two tasks sharing the description "dup". -/
def dupTask2 : ferro.Task := okTask "dup" "m2" "b"

/-- C7 witness: two concrete tasks under the description "dup"; the final
state holds the second task's output. -/
theorem duplicate_description_replaces_witness :
    getKV "dup" (ctx0.afterTask dupTask1 (dupTask1.run ctx0)).state =
      some (Value.str "a") ∧
    getKV "dup" (runTasks [dupTask1, dupTask2] ctx0).2.state =
      some (Value.str "b") :=
  duplicate_description_replaces dupTask1 dupTask2 ctx0
    ⟨.ok (.str "a")⟩ ⟨.ok (.str "b")⟩ (.str "a") (.str "b")
    rfl rfl rfl rfl rfl rfl

/-- C8: the claim says the lazy resolvers never fail. The enumerated
degradations do hold (an absent variable, an absent description and a
failed or non-string lookup all give the empty string, and
`with_default` falls back exactly on the empty string), but `state` is
not total: when the stored value is an array and the path contains an
empty segment, `find` panics and the panic propagates out of the
resolver. -/
theorem lazy_state_can_panic :
    lazy.state "t" "" ctxArr = LazyOut.panic ∧
    lazy.var "absent" ctxArr = LazyOut.ok "" ∧
    lazy.state "missing" "p" ctxArr = LazyOut.ok "" ∧
    lazy.with_default (lazy.string "") (lazy.string "fb") ctxArr =
      LazyOut.ok "fb" ∧
    lazy.with_default (lazy.string "x") (lazy.string "fb") ctxArr =
      LazyOut.ok "x" := ⟨rfl, rfl, rfl, rfl, rfl⟩

/-- C9: in the sequence returned by the playbook driver every result
except possibly the last one succeeded: a failure, when present, is the
final element. -/
theorem failure_only_last (tasks : List ferro.Task) (ctx : Context) :
    ((runTasks tasks ctx).1.dropLast).all (fun r => r.succeeded) = true := by
  induction tasks generalizing ctx with
  | nil => rfl
  | cons t rest ih =>
    rw [runTasks_cons]
    by_cases hs : (t.run ctx).succeeded = true
    · rw [if_pos hs]
      cases h : (runTasks rest (ctx.afterTask t (t.run ctx))).1 with
      | nil => simp [h]
      | cons x xs =>
        have hrest := ih (ctx.afterTask t (t.run ctx))
        rw [h] at hrest
        simp only [h, dropLast_cons_cons, List.all_cons, hs, Bool.true_and]
        exact hrest
    · rw [if_neg hs]
      rfl

/-- C10: a failed task result never carries an output, and consequently
the playbook's state-update step after a failed task leaves the context
unchanged. -/
theorem failed_task_no_output (t : ferro.Task) (ctx : Context)
    (h : (t.run ctx).succeeded = false) :
    (t.run ctx).output = none ∧ ctx.afterTask t (t.run ctx) = ctx := by
  have hout : (t.run ctx).output = none := by
    rcases hw : t.when with e | b
    · rw [Task.run_when_error t ctx e hw]
    · cases b with
      | false => rw [Task.run_when_false t ctx hw] at h; simp at h
      | true =>
        rcases ha : t.module.apply ctx with e | r
        · rw [Task.run_apply_error t ctx e hw ha]
        · rw [Task.run_apply_ok t ctx r hw ha] at h; simp at h
  refine ⟨hout, ?_⟩
  unfold Context.afterTask
  rw [hout]

/-- C10 witness: the concrete failing task over the empty context. -/
theorem failed_task_no_output_witness :
    (boomTask.run ctx0).output = none ∧
    ctx0.afterTask boomTask (boomTask.run ctx0) = ctx0 :=
  failed_task_no_output boomTask ctx0 rfl
